import Mathlib

/-!
Verification of the FikrFree conversational session engine spec against the
repository's client code (`static/chatbot.js` and the JavaScript SDK
`fikrfree-client-sdk.js`).  Each section embeds one source function as an
executable Lean definition and proves the spec's claims about it.
-/

/-! ## Language heuristic (`detectLanguage`, static/chatbot.js lines 378-387) -/

/-- The two labels of the closed set returned by `detectLanguage`. -/
inductive Lang
  | english
  | roman_urdu
deriving DecidableEq, Repr

/-- The character class of JavaScript's `\s` (used by `split(/\s+/)`):
ASCII whitespace, NBSP, and the Unicode space separators. -/
def isJsWhitespace (c : Char) : Bool :=
  c == ' ' || c == '\t' || c == '\n' || c == '\r' || c == '\u000B' || c == '\u000C' ||
  c == '\u00A0' || c == '\u1680' || (decide ('\u2000' ≤ c) && decide (c ≤ '\u200A')) ||
  c == '\u2028' || c == '\u2029' || c == '\u202F' || c == '\u205F' || c == '\u3000' ||
  c == '\uFEFF'

/-- `String.prototype.split(/\s+/)`: segments between maximal whitespace runs.
The Bool argument records whether we are currently inside a whitespace run
(after having emitted the token to its left); JavaScript yields an empty
leading segment for leading whitespace and an empty trailing segment for
trailing whitespace, and `"".split(/\s+/)` is `[""]`. -/
def splitWsAux : List Char → Bool → List Char → List (List Char)
  | [], true, _ => [[]]
  | [], false, cur => [cur.reverse]
  | c :: rest, true, _ =>
    if isJsWhitespace c then splitWsAux rest true [] else splitWsAux rest false [c]
  | c :: rest, false, cur =>
    if isJsWhitespace c then cur.reverse :: splitWsAux rest true []
    else splitWsAux rest false (c :: cur)

def jsSplitWs (s : List Char) : List (List Char) := splitWsAux s false []

/-- `String.prototype.toLowerCase`, modelled on the ASCII range (Lean's
`Char.toLower`); the Roman-Urdu lexicon below is pure ASCII. -/
def jsToLowerCase (s : String) : String := String.mk (s.toList.map Char.toLower)

/-- The fixed Roman-Urdu marker lexicon `ru` of `detectLanguage`. -/
def ruLexicon : List String :=
  ["aap", "hai", "hay", "hain", "kar", "main", "yeh", "woh", "kya", "kyun", "kab",
   "kahan", "kaisa", "kitna", "mera", "tera", "hamara", "tumhara", "unka", "iska",
   "uska", "nahi", "nahin", "bahut", "shukriya", "maaf", "ji", "han", "haan",
   "achha", "bura"]

/-- `const words = lower.split(/\s+/)` of `detectLanguage`: the lowercased
text tokenized on whitespace. -/
def jsTokens (text : String) : List String :=
  (jsSplitWs (jsToLowerCase text).toList).map String.mk

/-- `const total = words.length || 1` (the guard is JavaScript's `|| 1`). -/
def jsTotalTokens (text : String) : Nat :=
  if (jsTokens text).length = 0 then 1 else (jsTokens text).length

/-- `const ruCount = words.filter(w => ru.includes(w)).length`. -/
def ruMarkerCount (text : String) : Nat :=
  ((jsTokens text).filter (fun w => ruLexicon.contains w)).length

def isAsciiLetter (c : Char) : Bool :=
  (decide ('a' ≤ c) && decide (c ≤ 'z')) || (decide ('A' ≤ c) && decide (c ≤ 'Z'))

/-- A JavaScript regex word character `\w`, for the `\b` boundaries. -/
def isWordChar (c : Char) : Bool :=
  isAsciiLetter c || (decide ('0' ≤ c) && decide (c ≤ '9')) || c == '_'

/-- Counts matches of `/\b[a-zA-Z]+\b/g`: maximal runs of word characters
that consist entirely of ASCII letters.  The `Option Bool` state is `none`
outside a run and `some b` inside one, `b` recording whether every character
of the run so far is a letter. -/
def countEnWordsAux : List Char → Option Bool → Nat
  | [], st => match st with | some true => 1 | _ => 0
  | c :: rest, st =>
    if isWordChar c then
      countEnWordsAux rest
        (some (isAsciiLetter c && (match st with | some b => b | none => true)))
    else
      (match st with | some true => 1 | _ => 0) + countEnWordsAux rest none

/-- `const enWords = (text||"").match(/\b[a-zA-Z]+\b/g) || []; enWords.length`. -/
def enWordCount (text : String) : Nat := countEnWordsAux text.toList none

/-- `detectLanguage` from static/chatbot.js, lines 378-387.  JavaScript
compares the double `enRatio = enWords.length / total` against `0.5` and
`0.35`; for natural-number counts these comparisons are exactly the integer
cross-multiplications `2 * enWords > total` and `20 * enWords > 7 * total`
(0.5 is 1/2 exactly; the double nearest 0.35 separates the same integer
quotients), which is how they are embedded here. -/
def detectLanguage (text : String) : Lang :=
  if jsTotalTokens text ≤ 4 then
    if ruMarkerCount text ≥ 2 then .roman_urdu
    else if 2 * enWordCount text > jsTotalTokens text then .english
    else .roman_urdu
  else
    if ruMarkerCount text ≥ 2 then .roman_urdu
    else if 20 * enWordCount text > 7 * jsTotalTokens text then .english
    else .english

/-- The decision policy exactly as the spec states it (§4.1): the alphabetic
ratio is "the number of `\b[a-zA-Z]+\b` words divided by the token count"
(an exact rational, no `|| 1` guard on the denominator), and the branch
structure is the spec\'s. -/
def detectLanguageSpec (text : String) : Lang :=
  if (jsTokens text).length ≤ 4 then
    if ruMarkerCount text ≥ 2 then .roman_urdu
    else if ((enWordCount text : ℚ) / ((jsTokens text).length : ℚ) > 0.5) then .english
    else .roman_urdu
  else
    if ruMarkerCount text ≥ 2 then .roman_urdu
    else if ((enWordCount text : ℚ) / ((jsTokens text).length : ℚ) > 0.35) then .english
    else .english

/-! ## Streaming transport

A server-sent line, as both stream readers see it after splitting the body
on newlines: a `data: `-prefixed line whose JSON parses to one of the event
types `content` / `complete` / `stopped` / `error`, a `data: ` line whose
JSON fails to parse (`badJson`), or a line without the prefix (`nonData`). -/

inductive SSELine
  | contentEv (chunk : String)
  | completeEv
  | stoppedEv
  | errorEv (msg : String)
  | badJson
  | nonData
deriving DecidableEq, Repr

/-- The `chunk` fields of the `content` events, in arrival order. -/
def chunksOf : List SSELine → List String
  | [] => []
  | .contentEv c :: ls => c :: chunksOf ls
  | _ :: ls => chunksOf ls

/-- Concatenation of a fragment list in order. -/
def concatStr : List String → String
  | [] => ""
  | c :: cs => c ++ concatStr cs

/-- Lines that may precede the terminal event of a turn: content fragments
and non-event noise. -/
def isPreTerminal : SSELine → Bool
  | .contentEv _ => true
  | .badJson => true
  | .nonData => true
  | _ => false

def isContentLine : SSELine → Bool
  | .contentEv _ => true
  | _ => false

def hasContent (ls : List SSELine) : Bool := ls.any isContentLine

/-! ### The SDK streaming handler
(`FikrFreeClient._handleStreamingResponse`, fikrfree-client-sdk.js) -/

/-- An exception thrown inside the SDK per-line `try` block: the
`FikrFreeAPIError` it constructs for an in-stream `error` event, or the
`JSON.parse` failure on a malformed payload. -/
inductive SDKError
  | apiError (msg : String)
  | parseError
deriving DecidableEq, Repr

/-- `fullResponse` and `chunks` of `_handleStreamingResponse`. -/
structure SDKState where
  fullResponse : String
  chunks : List String
deriving DecidableEq, Repr

/-- The body of the SDK per-line `try`: `content` appends to
`fullResponse` and pushes onto `chunks`; `complete` sets `finalData` and
breaks (the `true` flag); an unrecognized type (`stopped`) falls through the
if-chain; an `error` event throws a `FikrFreeAPIError`, and a malformed
payload makes `JSON.parse` throw — both modelled as `Except.error`.  A line
without the `data: ` prefix is skipped before the `try`. -/
def sdkLine (st : SDKState) : SSELine → Except SDKError (SDKState × Bool)
  | .contentEv c =>
    .ok ({ fullResponse := st.fullResponse ++ c, chunks := st.chunks ++ [c] }, false)
  | .completeEv => .ok (st, true)
  | .stoppedEv => .ok (st, false)
  | .errorEv m => .error (.apiError ("Streaming error: " ++ m))
  | .badJson => .error .parseError
  | .nonData => .ok (st, false)

/-- The SDK read loop over the split lines: `catch (parseError) {
continue; }` turns every per-line exception into a skip to the next line;
the loop stops when `finalData` is set by a `complete` event. -/
def sdkLoop : SDKState → List SSELine → SDKState × Bool
  | st, [] => (st, false)
  | st, l :: ls =>
    match sdkLine st l with
    | .error _ => sdkLoop st ls
    | .ok (st2, true) => (st2, true)
    | .ok (st2, false) => sdkLoop st2 ls

/-- `_handleStreamingResponse` starting from empty `fullResponse` and
`chunks`; the Bool is whether a `complete` event ended the stream. -/
def sdkHandleStream (ls : List SSELine) : SDKState × Bool :=
  sdkLoop { fullResponse := "", chunks := [] } ls

/-! ### The web client streaming handler
(`sendMessage`, static/chatbot.js lines 196-274) -/

/-- The marker `sendMessage` appends on a `stopped` event (line 246). -/
def stopMarker : String := "\n\n[Response stopped by user]"

/-- The client-side state the stream loop mutates: `accumulatedText`, and
whether the module-level `currentMessageElement` is non-null (it is set when
the first `content` event creates the bot message bubble, and persists
across turns). -/
structure ClientState where
  accumulatedText : String
  msgElemSet : Bool
deriving DecidableEq, Repr

/-- One parsed `data: ` line of the `sendMessage` loop: `content` appends
the chunk and (on the first one) creates the message element; `complete`
only re-enables the UI and clears the timer; `stopped` appends the stop
marker — but only if `currentMessageElement` is non-null; `error` replaces
the displayed html without touching `accumulatedText`; parse failures are
caught and logged. -/
def clientLine (st : ClientState) : SSELine → ClientState
  | .contentEv c => { accumulatedText := st.accumulatedText ++ c, msgElemSet := true }
  | .completeEv => st
  | .stoppedEv =>
    if st.msgElemSet then { st with accumulatedText := st.accumulatedText ++ stopMarker }
    else st
  | .errorEv _ => st
  | .badJson => st
  | .nonData => st

def clientStream : ClientState → List SSELine → ClientState
  | st, [] => st
  | st, l :: ls => clientStream (clientLine st l) ls

/-- One turn of `sendMessage`: `accumulatedText` starts empty;
`currentMessageElement` keeps whatever value the page had when the turn
started (`initElem`). -/
def clientTurn (initElem : Bool) (ls : List SSELine) : ClientState :=
  clientStream { accumulatedText := "", msgElemSet := initElem } ls

/-! ## Cancellation controller (static/chatbot.js lines 8, 187, 240-258, 277-280) -/

/-- The page-level events that touch `currentController`: `sendMessage`
entry (line 187, a fresh `AbortController`), a terminal stream event
(`complete` / `stopped` / `error`: the handlers re-enable the UI and clear
the timer — the controller is not touched), and a `stopResponse` click
(lines 277-280). -/
inductive CtlOp
  | startTurn
  | terminalEvent
  | stopClick
deriving DecidableEq, Repr

/-- `controller` is the module-level `currentController` (token ids are
allocation order); `abortedTokens` records every token that was signalled
(`abort()` invoked). -/
structure CtlState where
  controller : Option Nat
  nextId : Nat
  abortedTokens : List Nat
deriving DecidableEq, Repr

def ctlInit : CtlState := { controller := none, nextId := 0, abortedTokens := [] }

def ctlStep (st : CtlState) : CtlOp → CtlState
  | .startTurn => { st with controller := some st.nextId, nextId := st.nextId + 1 }
  | .terminalEvent => st
  | .stopClick =>
    match st.controller with
    | some t => { st with controller := none, abortedTokens := st.abortedTokens ++ [t] }
    | none => st

def ctlRun : CtlState → List CtlOp → CtlState
  | st, [] => st
  | st, op :: ops => ctlRun (ctlStep st op) ops

/-- Every token `ctlRun` has handed out is below the allocation counter. -/
def ctlBound (st : CtlState) : Prop :=
  (∀ t ∈ st.abortedTokens, t < st.nextId) ∧ (∀ t, st.controller = some t → t < st.nextId)

/-! ## Client response timer (static/chatbot.js lines 160-165, 243, 253, 257, 273) -/

/-- The stream events whose handler calls `clearTimeout(responseTimeout)`:
the three terminal events (`complete`, `stopped`, `error`; the fetch
`.catch` clears it too).  A `content` event does NOT clear the timer. -/
def clearsTimer : SSELine → Bool
  | .completeEv => true
  | .stoppedEv => true
  | .errorEv _ => true
  | _ => false

/-- Whether the 60000 ms `setTimeout` armed at `sendMessage` entry fires:
it fires iff no clearing event is processed before the 60000 ms mark.  The
list pairs each processed stream line with its arrival time in ms after
`sendMessage` entry. -/
def timeoutFires (events : List (Nat × SSELine)) : Bool :=
  events.all (fun p => !(clearsTimer p.2 && decide (p.1 < 60000)))

/-! ## Input validation (SDK `chat`, fikrfree-client-sdk.js lines 289-301;
`sendMessage`, static/chatbot.js lines 167-169) -/

/-- `String.prototype.trim()` over the JavaScript whitespace class. -/
def jsTrim (s : String) : String :=
  String.mk (((s.toList.dropWhile isJsWhitespace).reverse.dropWhile isJsWhitespace).reverse)

inductive ChatRejection
  | emptyMessage
  | oversizedMessage
deriving DecidableEq, Repr

/-- What the SDK `chat(message, …)` does before any network call: throw,
or issue a request whose body carries the trimmed message. -/
inductive SDKChatOutcome
  | thrown (msg : String)
  | request (body : String)
deriving DecidableEq, Repr

/-- The `chat` validation: `if (!message || !message.trim()) throw new
Error('Message cannot be empty')` — the session-creation and chat requests
happen only after this check; the request body carries `message.trim()`. -/
def sdkChat (message : String) : SDKChatOutcome :=
  if message = "" then .thrown "Message cannot be empty"
  else if jsTrim message = "" then .thrown "Message cannot be empty"
  else .request (jsTrim message)

/-- The `sendMessage` validation: `const userMsg = input.val().trim(); if
(!userMsg) return;` — `none` means the function returns without any fetch. -/
def clientSend (inputVal : String) : Option String :=
  if jsTrim inputVal = "" then none else some (jsTrim inputVal)

/-- Modelled from the spec: the server-side `Validating` step of the Turn
Processor (§4.3) is not under src/ (the FastAPI backend is absent; only its
clients are included).  Per the spec it "fails with `InvalidInput` if
message is empty after trimming, or exceeds a maximum length (policy value;
reject oversized input rather than truncate)" — the accepted message is
passed through unaltered, never shortened. -/
def backendValidate (maxLen : Nat) (message : String) : Except ChatRejection String :=
  if jsTrim message = "" then .error .emptyMessage
  else if maxLen < message.length then .error .oversizedMessage
  else .ok message

/-! ## Session deletion and history (SDK `deleteSession` / `getHistory`,
fikrfree-client-sdk.js lines 392-429) -/

inductive ClientError
  | sessionNotFound
  | noActiveSession
deriving DecidableEq, Repr

/-- Modelled from the spec: the server-side Session Store (§4.2) is not
under src/.  Sessions are a registry from ids to ordered histories. -/
structure SessionStore where
  sessions : List (String × List String)
deriving DecidableEq, Repr

/-- Modelled from the spec: `delete(session_id)` is "idempotent;
succeeds even if already absent" — it removes the id and has no error
conditions. -/
def storeDelete (st : SessionStore) (sid : String) : SessionStore :=
  { sessions := st.sessions.filter (fun p => !(p.1 == sid)) }

/-- Modelled from the spec: `get(session_id)` "fails with `SessionNotFound`
if absent or expired"; the history endpoint returns the ordered turn
list. -/
def storeGetHistory (st : SessionStore) (sid : String) : Except ClientError (List String) :=
  match st.sessions.find? (fun p => p.1 == sid) with
  | some p => .ok p.2
  | none => .error .sessionNotFound

/-- The SDK client object: `this.sessionId`. -/
structure SDKClient where
  sessionId : Option String
deriving DecidableEq, Repr

structure DeleteOutcome where
  ok : Bool
  client : SDKClient
  server : SessionStore
deriving DecidableEq, Repr

/-- The SDK `deleteSession`: with no session it returns `true` at once;
otherwise it issues the DELETE (which, per the spec-modelled store, always
succeeds), clears `this.sessionId` and returns `true`. -/
def deleteSession (client : SDKClient) (server : SessionStore) : DeleteOutcome :=
  match client.sessionId with
  | none => { ok := true, client := client, server := server }
  | some sid =>
    { ok := true, client := { sessionId := none }, server := storeDelete server sid }

/-- The SDK `getHistory`: with no active session it throws
`FikrFreeAPIError('No active session')` before any request; otherwise it
asks the server for the session's history. -/
def sdkGetHistory (client : SDKClient) (server : SessionStore) :
    Except ClientError (List String) :=
  match client.sessionId with
  | none => .error .noActiveSession
  | some sid => storeGetHistory server sid

/-! ## Feedback and analytics (`submitFeedback` lines 358-376,
`logEvent` lines 520-528, static/chatbot.js) -/

/-- The UI effects `submitFeedback` can perform, plus `chatAppend` standing
for anything that would alter the user-facing conversation flow. -/
inductive UIAction
  | disableThumbs
  | selectButton
  | appendThankYou
  | enableThumbs
  | deselectButton
  | chatAppend (text : String)
deriving DecidableEq, Repr

/-- `submitFeedback`: disable the thumb buttons and mark the clicked one
selected, then POST; on success append the thank-you note, on failure
(`.catch`) re-enable the buttons and unmark the selection — nothing else. -/
def submitFeedback (fetchOk : Bool) : List UIAction :=
  [.disableThumbs, .selectButton] ++
    (if fetchOk then [.appendThankYou] else [.enableThumbs, .deselectButton])

/-- The raw `fetch('/api/v1/events', …)` promise: it may reject. -/
def jsFetchEvents (ok : Bool) : Except String Unit :=
  if ok then .ok () else .error "NetworkError"

/-- `logEvent`: the fetch is chained with `.catch(() => {})` inside a
`try { … } catch (_) { /* ignore */ }` — every failure is swallowed and the
function returns normally. -/
def logEvent (ok : Bool) : Except String Unit :=
  match jsFetchEvents ok with
  | .ok _ => .ok ()
  | .error _ => .ok ()

/-! # Theorems -/

/-! ## Lemmas about the tokenizer and the ratio thresholds -/

theorem splitWsAux_ne_nil (s : List Char) : ∀ (b : Bool) (cur : List Char),
    splitWsAux s b cur ≠ [] := by
  induction s with
  | nil => intro b cur; cases b <;> simp [splitWsAux]
  | cons c rest ih =>
    intro b cur
    cases b
    · simp only [splitWsAux]
      split
      · simp
      · exact ih false (c :: cur)
    · simp only [splitWsAux]
      split
      · exact ih true []
      · exact ih false [c]

theorem jsTokens_ne_nil (text : String) : jsTokens text ≠ [] := by
  unfold jsTokens
  intro h
  exact splitWsAux_ne_nil (jsToLowerCase text).toList false [] (List.map_eq_nil_iff.mp h)

theorem jsTotalTokens_eq (text : String) : jsTotalTokens text = (jsTokens text).length := by
  unfold jsTotalTokens
  rw [if_neg]
  intro h
  exact jsTokens_ne_nil text (List.eq_nil_of_length_eq_zero h)

theorem ratio_gt_half_iff (en len : Nat) (h : len ≠ 0) :
    ((en : ℚ) / (len : ℚ) > 0.5) ↔ 2 * en > len := by
  have hl : (0 : ℚ) < (len : ℚ) := by exact_mod_cast Nat.pos_of_ne_zero h
  rw [gt_iff_lt, show (0.5 : ℚ) = 1 / 2 by norm_num,
    div_lt_div_iff₀ (by norm_num) hl, one_mul]
  constructor
  · intro hh
    have : len < en * 2 := by exact_mod_cast hh
    omega
  · intro hh
    have : len < en * 2 := by omega
    exact_mod_cast this

theorem ratio_gt_p35_iff (en len : Nat) (h : len ≠ 0) :
    ((en : ℚ) / (len : ℚ) > 0.35) ↔ 20 * en > 7 * len := by
  have hl : (0 : ℚ) < (len : ℚ) := by exact_mod_cast Nat.pos_of_ne_zero h
  rw [gt_iff_lt, show (0.35 : ℚ) = 7 / 20 by norm_num,
    div_lt_div_iff₀ (by norm_num) hl]
  constructor
  · intro hh
    have : 7 * len < en * 20 := by exact_mod_cast hh
    omega
  · intro hh
    have : 7 * len < en * 20 := by omega
    exact_mod_cast this

/-- C1: for every input string, `detectLanguage` returns exactly one of the
two labels of the closed set and agrees with the spec\'s decision policy
(short input: roman_urdu on marker-count ≥ 2, else english on ratio > 0.5,
else roman_urdu; long input: roman_urdu on marker-count ≥ 2, else english on
ratio > 0.35, else english). -/
theorem detectLanguage_follows_spec_policy (text : String) :
    detectLanguage text = detectLanguageSpec text ∧
    (detectLanguage text = Lang.english ∨ detectLanguage text = Lang.roman_urdu) := by
  have hne : (jsTokens text).length ≠ 0 := by
    intro h
    exact jsTokens_ne_nil text (List.eq_nil_of_length_eq_zero h)
  constructor
  · unfold detectLanguage detectLanguageSpec
    rw [jsTotalTokens_eq]
    simp only [ratio_gt_half_iff _ _ hne, ratio_gt_p35_iff _ _ hne]
  · cases h : detectLanguage text
    · exact Or.inl rfl
    · exact Or.inr rfl

/-- C2 counterexample: on the input `"salam"` the classifier returns
`english`, not the claimed `roman_urdu`: the single token is not in the
lexicon and the alphabetic ratio is 1 > 0.5, so the `english` branch is
taken before the short-input default. -/
theorem detectLanguage_salam_not_roman_urdu :
    detectLanguage "salam" ≠ Lang.roman_urdu := by decide

/-- C2 amended: `"salam"` (1 token, 0 markers, ratio 1.0 > 0.5) returns
english via the short-input ratio branch; `"kya hal hai aap ka"` (3 markers)
returns roman_urdu; `"What are your insurance plans"` (5 tokens, 0 markers,
ratio 1.0) returns english. -/
theorem detectLanguage_scenario_labels :
    detectLanguage "salam" = Lang.english ∧
    detectLanguage "kya hal hai aap ka" = Lang.roman_urdu ∧
    detectLanguage "What are your insurance plans" = Lang.english := by
  refine ⟨by decide, by decide, by decide⟩

/-! ## Stream processing lemmas -/

theorem concatStr_append (a b : List String) :
    concatStr (a ++ b) = concatStr a ++ concatStr b := by
  induction a with
  | nil => simp [concatStr]
  | cons c cs ih => simp [concatStr, ih, String.append_assoc]

theorem chunksOf_map_content (cs : List String) :
    chunksOf (cs.map SSELine.contentEv) = cs := by
  induction cs with
  | nil => rfl
  | cons c cs ih => simp [chunksOf, ih]

theorem sdkLoop_preTerminal (es : List SSELine) :
    ∀ (st : SDKState) (rest : List SSELine), (∀ e ∈ es, isPreTerminal e = true) →
    sdkLoop st (es ++ SSELine.completeEv :: rest) =
      ({ fullResponse := st.fullResponse ++ concatStr (chunksOf es),
         chunks := st.chunks ++ chunksOf es }, true) := by
  induction es with
  | nil => intro st rest _; simp [sdkLoop, sdkLine, chunksOf, concatStr]
  | cons e es ih =>
    intro st rest h
    have he : isPreTerminal e = true := h e (List.mem_cons_self e es)
    have htl : ∀ x ∈ es, isPreTerminal x = true :=
      fun x hx => h x (List.mem_cons_of_mem e hx)
    cases e with
    | contentEv c =>
      have step : sdkLoop st (SSELine.contentEv c :: es ++ SSELine.completeEv :: rest)
          = sdkLoop { fullResponse := st.fullResponse ++ c, chunks := st.chunks ++ [c] }
              (es ++ SSELine.completeEv :: rest) := rfl
      rw [step, ih _ rest htl]
      simp [chunksOf, concatStr, String.append_assoc, List.append_assoc]
    | completeEv => simp [isPreTerminal] at he
    | stoppedEv => simp [isPreTerminal] at he
    | errorEv m => simp [isPreTerminal] at he
    | badJson =>
      have step : sdkLoop st (SSELine.badJson :: es ++ SSELine.completeEv :: rest)
          = sdkLoop st (es ++ SSELine.completeEv :: rest) := rfl
      rw [step, ih st rest htl]
      simp [chunksOf]
    | nonData =>
      have step : sdkLoop st (SSELine.nonData :: es ++ SSELine.completeEv :: rest)
          = sdkLoop st (es ++ SSELine.completeEv :: rest) := rfl
      rw [step, ih st rest htl]
      simp [chunksOf]

theorem clientStream_append (a : List SSELine) :
    ∀ (st : ClientState) (b : List SSELine),
    clientStream st (a ++ b) = clientStream (clientStream st a) b := by
  induction a with
  | nil => intro st b; rfl
  | cons l ls ih => intro st b; simp only [List.cons_append, clientStream]; exact ih _ b

theorem clientStream_preTerminal (es : List SSELine) :
    ∀ (st : ClientState), (∀ e ∈ es, isPreTerminal e = true) →
    clientStream st es =
      { accumulatedText := st.accumulatedText ++ concatStr (chunksOf es),
        msgElemSet := st.msgElemSet || hasContent es } := by
  induction es with
  | nil => intro st _; simp [clientStream, chunksOf, concatStr, hasContent]
  | cons e es ih =>
    intro st h
    have he : isPreTerminal e = true := h e (List.mem_cons_self e es)
    have htl : ∀ x ∈ es, isPreTerminal x = true :=
      fun x hx => h x (List.mem_cons_of_mem e hx)
    cases e with
    | contentEv c =>
      simp only [clientStream, clientLine]
      rw [ih _ htl]
      simp [chunksOf, concatStr, hasContent, isContentLine, String.append_assoc]
    | completeEv => simp [isPreTerminal] at he
    | stoppedEv => simp [isPreTerminal] at he
    | errorEv m => simp [isPreTerminal] at he
    | badJson =>
      simp only [clientStream, clientLine]
      rw [ih _ htl]
      simp [chunksOf, hasContent, isContentLine]
    | nonData =>
      simp only [clientStream, clientLine]
      rw [ih _ htl]
      simp [chunksOf, hasContent, isContentLine]

/-- C3: for every streamed turn that ends with a `complete` event, the full
response text the client ends up with — the SDK's `fullResponse` (and its
`chunks` list) and chatbot.js's `accumulatedText` — equals the concatenation,
in exact arrival order, of the `chunk` fields of all `content` events
received before the terminal event, with no chunk duplicated or dropped. -/
theorem streamed_turn_concatenates_chunks (es : List SSELine) (initElem : Bool)
    (h : ∀ e ∈ es, isPreTerminal e = true) :
    (sdkHandleStream (es ++ [SSELine.completeEv])).1.fullResponse =
      concatStr (chunksOf es) ∧
    (sdkHandleStream (es ++ [SSELine.completeEv])).1.chunks = chunksOf es ∧
    (clientTurn initElem (es ++ [SSELine.completeEv])).accumulatedText =
      concatStr (chunksOf es) := by
  refine ⟨?_, ?_, ?_⟩
  · unfold sdkHandleStream
    rw [sdkLoop_preTerminal es _ [] h]
    simp
  · unfold sdkHandleStream
    rw [sdkLoop_preTerminal es _ [] h]
    simp
  · unfold clientTurn
    rw [clientStream_append es _ [SSELine.completeEv]]
    rw [clientStream_preTerminal es _ h]
    simp [clientStream, clientLine]

theorem streamed_turn_concatenates_chunks_witness :
    (sdkHandleStream ([SSELine.contentEv "Hello, ", SSELine.nonData,
        SSELine.contentEv "world!"] ++ [SSELine.completeEv])).1.fullResponse =
      concatStr (chunksOf [SSELine.contentEv "Hello, ", SSELine.nonData,
        SSELine.contentEv "world!"]) ∧
    (sdkHandleStream ([SSELine.contentEv "Hello, ", SSELine.nonData,
        SSELine.contentEv "world!"] ++ [SSELine.completeEv])).1.chunks =
      chunksOf [SSELine.contentEv "Hello, ", SSELine.nonData,
        SSELine.contentEv "world!"] ∧
    (clientTurn false ([SSELine.contentEv "Hello, ", SSELine.nonData,
        SSELine.contentEv "world!"] ++ [SSELine.completeEv])).accumulatedText =
      concatStr (chunksOf [SSELine.contentEv "Hello, ", SSELine.nonData,
        SSELine.contentEv "world!"]) :=
  streamed_turn_concatenates_chunks
    [SSELine.contentEv "Hello, ", SSELine.nonData, SSELine.contentEv "world!"]
    false (by decide)

/-- C4 counterexample: a turn cancelled after N = 0 content events on a
fresh page (no message element exists yet) commits no stop marker at all:
`accumulatedText` stays empty instead of the claimed concatenation of the 0
fragments followed by one stop marker. -/
theorem stopped_turn_without_element_has_no_marker :
    (clientTurn false [SSELine.stoppedEv]).accumulatedText ≠
      concatStr [] ++ stopMarker := by decide

/-- C4 amended: for a turn cancelled after N content events, provided a
message element exists (at least one fragment arrived this turn, or one
existed from an earlier turn), the committed text equals the concatenation
of the N already-received fragments, unmodified, followed by exactly one
stop marker; and that partial concatenation is a prefix of what the
uninterrupted run (the same fragments followed by the rest and `complete`)
would have produced.  With no fragments and no pre-existing message element,
no marker is appended (the text stays empty). -/
theorem stopped_turn_prefix_plus_marker (initElem : Bool) (cs ds : List String)
    (h : cs ≠ [] ∨ initElem = true) :
    (clientTurn initElem (cs.map SSELine.contentEv ++ [SSELine.stoppedEv])).accumulatedText
      = concatStr cs ++ stopMarker ∧
    (clientTurn initElem (cs.map SSELine.contentEv ++ ds.map SSELine.contentEv
        ++ [SSELine.completeEv])).accumulatedText = concatStr cs ++ concatStr ds := by
  have hpre : ∀ e ∈ cs.map SSELine.contentEv, isPreTerminal e = true := by
    intro e he
    obtain ⟨c, _, rfl⟩ := List.mem_map.mp he
    rfl
  have helem : (false || hasContent (cs.map SSELine.contentEv)) = true ∨ initElem = true := by
    rcases h with h | h
    · left
      cases cs with
      | nil => exact absurd rfl h
      | cons c cs => simp [hasContent, isContentLine]
    · right
      exact h
  constructor
  · unfold clientTurn
    rw [clientStream_append _ _ [SSELine.stoppedEv]]
    rw [clientStream_preTerminal _ _ hpre]
    have hset : (initElem || hasContent (cs.map SSELine.contentEv)) = true := by
      rcases helem with h' | h'
      · simp only [Bool.false_or] at h'
        simp [h']
      · simp [h']
    simp [clientStream, clientLine, hset, chunksOf_map_content]
  · unfold clientTurn
    rw [clientStream_append _ _ [SSELine.completeEv], ← List.map_append]
    have hpre2 : ∀ e ∈ (cs ++ ds).map SSELine.contentEv, isPreTerminal e = true := by
      intro e he
      obtain ⟨c, _, rfl⟩ := List.mem_map.mp he
      rfl
    rw [clientStream_preTerminal ((cs ++ ds).map SSELine.contentEv) _ hpre2]
    simp only [clientStream, clientLine]
    rw [chunksOf_map_content, concatStr_append]
    simp

theorem stopped_turn_prefix_plus_marker_witness :
    (clientTurn false (["Hel"].map SSELine.contentEv ++ [SSELine.stoppedEv])).accumulatedText
      = concatStr ["Hel"] ++ stopMarker ∧
    (clientTurn false (["Hel"].map SSELine.contentEv ++ ["lo"].map SSELine.contentEv
        ++ [SSELine.completeEv])).accumulatedText = concatStr ["Hel"] ++ concatStr ["lo"] :=
  stopped_turn_prefix_plus_marker false ["Hel"] ["lo"] (Or.inl (by decide))

/-- C10: in the SDK streaming handler, the exception raised while processing
a single `data: ` line — the `JSON.parse` failure on a malformed payload, or
the `FikrFreeAPIError` constructed for an in-stream `error` event — is
caught by the per-line catch and the loop continues, state intact, with the
next line; the loop keeps reading until the stream ends or a `complete`
event arrives, so a streaming `chat()` call never propagates an exception
for an `error` event. -/
theorem sdk_stream_errors_caught (st : SDKState) (m : String) (ls : List SSELine) :
    sdkLine st (SSELine.errorEv m) =
      Except.error (SDKError.apiError ("Streaming error: " ++ m)) ∧
    sdkLine st SSELine.badJson = Except.error SDKError.parseError ∧
    sdkLoop st (SSELine.errorEv m :: ls) = sdkLoop st ls ∧
    sdkLoop st (SSELine.badJson :: ls) = sdkLoop st ls ∧
    sdkLoop st (SSELine.completeEv :: ls) = (st, true) :=
  ⟨rfl, rfl, rfl, rfl, rfl⟩

/-! ## Cancellation controller lemmas -/

theorem ctlStep_bound (st : CtlState) (op : CtlOp) (h : ctlBound st) :
    ctlBound (ctlStep st op) := by
  obtain ⟨ha, hc⟩ := h
  cases op with
  | startTurn =>
    constructor
    · intro t ht
      simp only [ctlStep] at ht
      exact Nat.lt_succ_of_lt (ha t ht)
    · intro t ht
      simp only [ctlStep, Option.some_inj] at ht
      simp only [ctlStep]
      omega
  | terminalEvent => exact ⟨ha, hc⟩
  | stopClick =>
    cases hco : st.controller with
    | none =>
      simp only [ctlStep, hco]
      exact ⟨ha, hc⟩
    | some t0 =>
      simp only [ctlStep, hco]
      constructor
      · intro t ht
        rcases List.mem_append.mp ht with h' | h'
        · exact ha t h'
        · rw [List.mem_singleton] at h'
          show t < st.nextId
          exact lt_of_eq_of_lt h' (hc t0 hco)
      · intro t ht
        simp at ht

theorem ctlRun_bound (ops : List CtlOp) :
    ∀ (st : CtlState), ctlBound st → ctlBound (ctlRun st ops) := by
  induction ops with
  | nil => intro st h; exact h
  | cons op ops ih => intro st h; exact ih _ (ctlStep_bound st op h)

/-- C5 counterexample: run `sendMessage` then a terminal event —
`currentController` is NOT set to null at the terminal state, and a
`stopResponse` after the turn has terminated still signals the stale token
(`abort()` is called on it), contrary to the claim that it signals no
token. -/
theorem controller_not_discarded_at_terminal :
    (ctlRun ctlInit [CtlOp.startTurn, CtlOp.terminalEvent]).controller ≠ none ∧
    (ctlRun ctlInit
        [CtlOp.startTurn, CtlOp.terminalEvent, CtlOp.stopClick]).abortedTokens = [0] := by
  refine ⟨by decide, by decide⟩

/-- C5 amended: `sendMessage` creates one fresh `AbortController` per turn
(its token is new: strictly above every token ever aborted and every token
ever held), at most one controller is referenced at any time (the single
`currentController` slot), but terminal events do NOT clear
`currentController` — only `stopResponse` does, after aborting it.  So a
`stopResponse` after the turn has terminated aborts the stale token of the
finished turn and then clears the slot; a further `stopResponse` with the
slot empty signals nothing. -/
theorem controller_lifecycle (ops : List CtlOp) :
    (ctlStep (ctlRun ctlInit ops) CtlOp.startTurn).controller
      = some (ctlRun ctlInit ops).nextId ∧
    (∀ t ∈ (ctlRun ctlInit ops).abortedTokens, t < (ctlRun ctlInit ops).nextId) ∧
    (∀ t, (ctlRun ctlInit ops).controller = some t → t < (ctlRun ctlInit ops).nextId) ∧
    (ctlStep (ctlRun ctlInit ops) CtlOp.terminalEvent).controller
      = (ctlRun ctlInit ops).controller ∧
    (∀ t, (ctlRun ctlInit ops).controller = some t →
      ctlStep (ctlRun ctlInit ops) CtlOp.stopClick
        = { controller := none, nextId := (ctlRun ctlInit ops).nextId,
            abortedTokens := (ctlRun ctlInit ops).abortedTokens ++ [t] }) ∧
    ((ctlRun ctlInit ops).controller = none →
      ctlStep (ctlRun ctlInit ops) CtlOp.stopClick = ctlRun ctlInit ops) := by
  have hb : ctlBound (ctlRun ctlInit ops) :=
    ctlRun_bound ops ctlInit ⟨by intro t ht; simp [ctlInit] at ht,
      by intro t ht; simp [ctlInit] at ht⟩
  refine ⟨rfl, hb.1, hb.2, rfl, ?_, ?_⟩
  · intro t ht
    simp [ctlStep, ht]
  · intro ht
    simp [ctlStep, ht]

/-! ## Response timer -/

/-- C6 counterexample: a turn whose first `content` fragment arrives at
1000 ms but whose `complete` event only arrives at 70000 ms still fires the
timeout — the timer is cleared only by terminal events, never by a
fragment — refuting "never fires on a turn that has already started
delivering fragments". -/
theorem timeout_fires_despite_early_fragment :
    timeoutFires [(1000, SSELine.contentEv "Hi"), (70000, SSELine.completeEv)] = true ∧
    isContentLine (SSELine.contentEv "Hi") = true ∧ (1000 : Nat) < 60000 := by
  refine ⟨by decide, rfl, by decide⟩

/-- C6 amended: the 60000 ms client timeout fires exactly when no terminal
event (`complete`, `stopped` or `error` — the events that clear the timer)
is processed within 60000 ms of `sendMessage` entry; the arrival of content
fragments is irrelevant to it.  In particular it never fires on a turn that
reached a terminal event within the interval, but it does fire on a turn
still streaming fragments at the 60000 ms mark. -/
theorem timeout_fires_iff_no_terminal_within_limit (events : List (Nat × SSELine)) :
    timeoutFires events = true ↔
      ∀ p ∈ events, clearsTimer p.2 = true → 60000 ≤ p.1 := by
  unfold timeoutFires
  rw [List.all_eq_true]
  constructor
  · intro h p hp hclears
    have := h p hp
    simp only [hclears, Bool.true_and, Bool.not_eq_true', decide_eq_false_iff_not,
      Nat.not_lt] at this
    exact this
  · intro h p hp
    by_cases hclears : clearsTimer p.2 = true
    · have := h p hp hclears
      simp [hclears, Nat.not_lt.mpr this]
    · simp [Bool.not_eq_true] at hclears
      simp [hclears]

/-! ## Input validation -/

/-- C7: every message that is empty after trimming is rejected as invalid
input with no request issued — the SDK's `chat` throws `'Message cannot be
empty'` before any network call and chatbot.js's `sendMessage` returns
without sending — and (spec-modelled backend) a message exceeding the
maximum length is rejected with the oversize error rather than truncated. -/
theorem empty_and_oversized_messages_rejected (msg : String) (h : jsTrim msg = "")
    (maxLen : Nat) (big : String) (hb : ¬ jsTrim big = "") (hl : maxLen < big.length) :
    sdkChat msg = SDKChatOutcome.thrown "Message cannot be empty" ∧
    clientSend msg = none ∧
    backendValidate maxLen big = Except.error ChatRejection.oversizedMessage := by
  refine ⟨?_, ?_, ?_⟩
  · unfold sdkChat
    by_cases hm : msg = ""
    · rw [if_pos hm]
    · rw [if_neg hm, if_pos h]
  · unfold clientSend
    rw [if_pos h]
  · unfold backendValidate
    rw [if_neg hb, if_pos hl]

theorem empty_and_oversized_messages_rejected_witness :
    jsTrim "   " = "" ∧ ¬ jsTrim "hello world" = "" ∧ 5 < String.length "hello world" ∧
    (sdkChat "   " = SDKChatOutcome.thrown "Message cannot be empty" ∧
     clientSend "   " = none ∧
     backendValidate 5 "hello world" = Except.error ChatRejection.oversizedMessage) :=
  ⟨by decide, by decide, by decide,
    empty_and_oversized_messages_rejected "   " (by decide) 5 "hello world"
      (by decide) (by decide)⟩

/-! ## Session deletion -/

theorem find?_filter_out (sid : String) (l : List (String × List String)) :
    (l.filter (fun p => !(p.1 == sid))).find? (fun p => p.1 == sid) = none := by
  induction l with
  | nil => rfl
  | cons a t ih =>
    by_cases h : a.1 == sid
    · simp [List.filter_cons, h, ih]
    · simp only [List.filter_cons, h, Bool.not_false, if_pos]
      rw [List.find?_cons_of_neg _ (by simp [h])]
      exact ih

/-- C8: session deletion is idempotent — for every client state, two
consecutive `deleteSession` calls both return `true` (the second with no
session remaining) — and after a successful delete the client holds no
session id, so a subsequent history request through the client fails (with
the no-active-session guard) rather than succeeding, and looking the
deleted id up at the (spec-modelled) store yields `SessionNotFound`. -/
theorem delete_idempotent_and_history_fails (c : SDKClient) (s : SessionStore)
    (server : SessionStore) (sid : String) :
    (deleteSession c s).ok = true ∧
    (deleteSession (deleteSession c s).client (deleteSession c s).server).ok = true ∧
    (deleteSession { sessionId := some sid } server).client.sessionId = none ∧
    sdkGetHistory (deleteSession { sessionId := some sid } server).client
      (deleteSession { sessionId := some sid } server).server
      = Except.error ClientError.noActiveSession ∧
    storeGetHistory (deleteSession { sessionId := some sid } server).server sid
      = Except.error ClientError.sessionNotFound := by
  refine ⟨?_, ?_, rfl, rfl, ?_⟩
  · cases hc : c.sessionId <;> simp [deleteSession, hc]
  · cases hc : c.sessionId <;> simp [deleteSession, hc]
  · show storeGetHistory (storeDelete server sid) sid = Except.error ClientError.sessionNotFound
    unfold storeGetHistory storeDelete
    simp only
    rw [find?_filter_out]

/-! ## Feedback and analytics -/

/-- C9: a failed recording call never blocks, fails or alters the chat flow:
`logEvent` returns normally whatever the fetch outcome (failures are
swallowed), and `submitFeedback`'s failure path performs exactly the two
button-state restorations — it never appends an error (or anything else) to
the conversation. -/
theorem recording_failures_swallowed (ok : Bool) :
    logEvent ok = Except.ok () ∧
    submitFeedback false = [UIAction.disableThumbs, UIAction.selectButton,
      UIAction.enableThumbs, UIAction.deselectButton] ∧
    (∀ s, UIAction.chatAppend s ∉ submitFeedback ok) := by
  refine ⟨?_, rfl, ?_⟩
  · cases ok <;> rfl
  · intro s hs
    cases ok <;> simp [submitFeedback] at hs
